import Mathlib

/-!
Verification of the scaphandre export layer (qemu exporter and prometheus
exporter) against its natural-language specification.

The Rust source is shallowly embedded:
* the filesystem is an explicit state (`FS`): a list of directories and an
  association list of files (path components to string contents);
* fallible filesystem operations are driven by an environment (`FsEnv`)
  saying which directory creations and which file writes fail;
* a Rust panic (process abort) is the `AddResult.fatal` outcome, a returned
  `io::Error` is `AddResult.err`;
* `u64` values are `Nat` with explicit reduction modulo `2 ^ 64` where the
  source performs `u64` addition (release-mode wrapping semantics);
* `f64` values appearing in the attribution pipeline are modelled as `ℚ`:
  the claims under study never depend on rounding of floats, only on which
  control path is taken, and the topology record's string value is modelled
  as its parsed numeric value.
-/

set_option autoImplicit false

/-- A path is a list of components, e.g. `["root", "vm1", "intel-rapl:0"]`
standing for `root/vm1/intel-rapl:0`. -/
abbrev FsPath := List String

/-- Model of the filesystem state touched by the qemu exporter:
the set of existing directories and the files with their contents. -/
structure FS where
  dirs : List FsPath
  files : List (FsPath × String)
deriving DecidableEq, Repr

/-- The empty filesystem (fresh export root). -/
def FS.empty : FS := ⟨[], []⟩

/-- Embedding of `Path::exists`: true when a directory or a file exists at `p`. -/
def FS.pathExists (fs : FS) (p : FsPath) : Bool :=
  fs.dirs.contains p || fs.files.any (fun f => f.1 = p)

/-- All non-empty prefixes of a path: the levels `fs::create_dir_all` creates. -/
def pathLevels : FsPath → List FsPath
  | [] => []
  | c :: rest => [c] :: (pathLevels rest).map (fun q => c :: q)

/-- Embedding of `fs::create_dir_all`: creates the directory and all missing ancestors. -/
def FS.createDirAll (fs : FS) (p : FsPath) : FS :=
  { fs with dirs := pathLevels p ++ fs.dirs }

/-- Embedding of `fs::write`: create or truncate-and-overwrite the file at `p`. -/
def FS.writeFile (fs : FS) (p : FsPath) (c : String) : FS :=
  { fs with files := (p, c) :: fs.files.filter (fun f => f.1 ≠ p) }

/-- Embedding of `fs::read_to_string`: the file's content when it exists. -/
def FS.readToString (fs : FS) (p : FsPath) : Option String :=
  (fs.files.find? (fun f => f.1 = p)).map (fun f => f.2)

/-- Fault environment: which directory creations and file writes fail
(e.g. read-only mount, permission denied), keyed by the target path. -/
structure FsEnv where
  createDirFails : FsPath → Bool
  writeFails : FsPath → Bool

/-- The all-successful environment: a healthy writable filesystem. -/
def envOk : FsEnv := ⟨fun _ => false, fun _ => false⟩

/-- Outcome of `add_or_create`: `ok`/`err` are the `io::Result` values it
returns, `fatal` is a Rust panic aborting the whole process
(`panic!` on `create_dir_all` failure, `unwrap` on parse failure). -/
inductive AddResult where
  | ok : AddResult
  | err : String → AddResult
  | fatal : String → AddResult
deriving DecidableEq, Repr

/-- True on the process-aborting outcome. -/
def AddResult.isFatal : AddResult → Bool
  | .fatal _ => true
  | _ => false

/-- True on the returned-`io::Error` outcome. -/
def AddResult.isErr : AddResult → Bool
  | .err _ => true
  | _ => false

/-- Embedding of `str::starts_with`, at the character level. -/
def strStartsWith (s pre : String) : Bool :=
  pre.toList.isPrefixOf s.toList

/-- Embedding of `str::parse::<u64>`: optional leading `+`, then one or more decimal
digits, value below `2 ^ 64`. -/
def parseU64 (s : String) : Option Nat :=
  let t := match s.toList with
    | '+' :: rest => rest
    | cs => cs
  if t.isEmpty then none
  else if t.all Char.isDigit then
    let v := t.foldl (fun acc c => acc * 10 + (c.toNat - 48)) 0
    if v < 2 ^ 64 then some v else none
  else none

/-- Writes the new total to both the domain-level and the sub-domain-level
`energy_uj` files (the tail of `add_or_create` after `content` is known). -/
def writeEnergyBoth (env : FsEnv) (fs : FS) (domain_package domain_core : FsPath)
    (content : Nat) : AddResult × FS :=
  if env.writeFails (domain_package ++ ["energy_uj"]) then (.err "write energy_uj", fs)
  else
  let fs5 := fs.writeFile (domain_package ++ ["energy_uj"]) (toString content)
  if env.writeFails (domain_core ++ ["energy_uj"]) then (.err "write energy_uj", fs5)
  else (.ok, fs5.writeFile (domain_core ++ ["energy_uj"]) (toString content))

/-- Embedding of `QemuExporter::add_or_create` (src/exporters/qemu.rs, lines 124-157):
creates the powercap-mimicking layout under `path`, then reads the
domain-level `energy_uj` file; when that read succeeds the parsed value
plus `uj_value` (u64 addition) is the new content, otherwise the content
is `0` (note: `uj_value` is NOT added in that branch — the addition sits
inside the `if let Ok(file)` block in the source); finally writes the new
content to both `energy_uj` files. Directory-creation failures panic
(`fatal`); a failed `fs::write` returns the error via `?`; an unparseable
counter file panics via `unwrap` (`fatal`). -/
def add_or_create (env : FsEnv) (fs : FS) (path : FsPath) (uj_value : Nat) :
    AddResult × FS :=
  if !fs.pathExists path && env.createDirFails path then (.fatal "create_dir_all", fs)
  else
  let fs1 := if fs.pathExists path then fs else fs.createDirAll path
  let domain_package := path ++ ["intel-rapl:0"]
  if !fs1.pathExists domain_package && env.createDirFails domain_package then
    (.fatal "create_dir_all", fs1)
  else
  let fs2 := if fs1.pathExists domain_package then fs1 else fs1.createDirAll domain_package
  if env.writeFails (domain_package ++ ["name"]) then (.err "write name", fs2)
  else
  let fs3 := fs2.writeFile (domain_package ++ ["name"]) "package-0"
  let domain_core := path ++ ["intel-rapl:0", "intel-rapl:0:0"]
  if !fs3.pathExists domain_core && env.createDirFails domain_core then
    (.fatal "create_dir_all", fs3)
  else
  let fs4 := if fs3.pathExists domain_core then fs3 else fs3.createDirAll domain_core
  if env.writeFails (domain_core ++ ["name"]) then (.err "write name", fs4)
  else
  let fs5 := fs4.writeFile (domain_core ++ ["name"]) "core"
  match fs5.readToString (domain_package ++ ["energy_uj"]) with
  | some file =>
    match parseU64 file with
    | none => (.fatal "parse u64", fs5)
    | some v => writeEnergyBoth env fs5 domain_package domain_core ((v + uj_value) % 2 ^ 64)
  | none => writeEnergyBoth env fs5 domain_package domain_core 0

/-- Applies a sequence of deltas through `add_or_create` to one VM path.
`add_or_create` is an associated function with no instance state (all its
state is the filesystem), so a freshly constructed exporter instance
between calls — a simulated restart — changes nothing in this fold. -/
def applyDeltas (env : FsEnv) (path : FsPath) (fs : FS) : List Nat → FS
  | [] => fs
  | d :: ds => applyDeltas env path (add_or_create env fs path d).2 ds

/-- C1: the claim says the final on-disk counter equals d1+...+dn exactly.
Evaluating the embedded `add_or_create` at the failing input: on a fresh
export root, the first delta (5) is dropped (the file is created holding
"0", because the source adds `uj_value` only inside the branch where the
counter file already reads back successfully), and after deltas `[5, 3]`
the counter holds "3", not "8". -/
theorem add_or_create_drops_first_delta :
    (applyDeltas envOk ["root", "vm1"] FS.empty [5]).readToString
      (["root", "vm1"] ++ ["intel-rapl:0", "energy_uj"]) = some "0"
    ∧ (applyDeltas envOk ["root", "vm1"] FS.empty [5, 3]).readToString
      (["root", "vm1"] ++ ["intel-rapl:0", "energy_uj"]) = some "3" := by
  exact ⟨rfl, rfl⟩

/-- C2: the claim says a missing or unparseable domain-level counter file is
treated as current value 0 with `delta` then added. Evaluating the embedded
`add_or_create`: with the file missing and delta 7, both `energy_uj` files
are written as "0" (the delta is not added — though the two files are indeed
numerically identical), and with an unparseable file the call is a process
abort (`unwrap` on `parse::<u64>`), not a treat-as-0. -/
theorem add_or_create_missing_and_unparseable :
    ((add_or_create envOk FS.empty ["root", "vm1"] 7).2.readToString
        (["root", "vm1"] ++ ["intel-rapl:0", "energy_uj"]) = some "0"
      ∧ (add_or_create envOk FS.empty ["root", "vm1"] 7).2.readToString
        (["root", "vm1"] ++ ["intel-rapl:0", "intel-rapl:0:0", "energy_uj"]) = some "0")
    ∧ (add_or_create envOk
        ((add_or_create envOk FS.empty ["root", "vm1"] 0).2.writeFile
          (["root", "vm1"] ++ ["intel-rapl:0", "energy_uj"]) "not a number")
        ["root", "vm1"] 7).1.isFatal = true := by
  exact ⟨⟨rfl, rfl⟩, rfl⟩


/-- The `guest=` branch of `get_vm_name_from_cmdline`: Rust
`elmt.split('=')` with `next()` called twice yields the characters after
the first `=` up to (exclusive) the next `=` or the end of the token; the
following `.split(',').next()` then cuts at the first `,`. The source's
`unwrap`s cannot fire because the caller guards with
`starts_with("guest=")`, which guarantees a first `=`. -/
def guestValue (elmt : String) : String :=
  let afterEq := (elmt.toList.dropWhile (fun c => c != '=')).drop 1
  let second := afterEq.takeWhile (fun c => c != '=')
  String.mk (second.takeWhile (fun c => c != ','))

/-- Rust `slice::windows(2)`: consecutive token pairs. -/
def windows2 : List String → List (String × String)
  | a :: b :: rest => (a, b) :: windows2 (b :: rest)
  | _ => []

/-- Embedding of `QemuExporter::get_vm_name_from_cmdline` (src/exporters/qemu.rs, lines
102-117): the first token starting with `guest=` wins and its value is
extracted by `split('=')`/`split(',')`; otherwise the first `-id` token
followed by another token yields that following token; otherwise "". -/
def get_vm_name_from_cmdline (cmdline : List String) : String :=
  match cmdline.find? (fun elmt => strStartsWith elmt "guest=") with
  | some elmt => guestValue elmt
  | none =>
    match (windows2 cmdline).find? (fun pair => pair.1 == "-id") with
    | some pair => pair.2
    | none => ""

/-- The C3 claim's extraction rule, as literally stated: the substring of
the `guest=` token between the first `=` and the next `,` (to the end when
there is no `,`). -/
def vmNameSpecClaimed (cmdline : List String) : String :=
  match cmdline.find? (fun elmt => strStartsWith elmt "guest=") with
  | some elmt =>
    String.mk (((elmt.toList.dropWhile (fun c => c != '=')).drop 1).takeWhile
      (fun c => c != ','))
  | none =>
    match (windows2 cmdline).find? (fun pair => pair.1 == "-id") with
    | some pair => pair.2
    | none => ""

/-- The amended C3 extraction rule: the substring of the `guest=` token
after the first `=` up to the next `=` or `,`, whichever comes first (to
the end when neither occurs); `-id` fallback and empty default unchanged. -/
def vmNameSpecAmended (cmdline : List String) : String :=
  match cmdline.find? (fun elmt => strStartsWith elmt "guest=") with
  | some elmt =>
    String.mk (((elmt.toList.dropWhile (fun c => c != '=')).drop 1).takeWhile
      (fun c => (c != '=') && (c != ',')))
  | none =>
    match (windows2 cmdline).find? (fun pair => pair.1 == "-id") with
    | some pair => pair.2
    | none => ""

theorem takeWhile_comp {α : Type} (p q : α → Bool) (l : List α) :
    (l.takeWhile q).takeWhile p = l.takeWhile (fun a => q a && p a) := by
  induction l with
  | nil => rfl
  | cons a rest ih =>
    by_cases hq : q a
    · by_cases hp : p a <;>
        simp [List.takeWhile_cons, hq, hp, ih]
    · simp [List.takeWhile_cons, hq]

/-- C3 (counterexample): on the token `guest=a=b,c` the claim's rule (take
everything between the first `=` and the next `,`) demands "a=b", but the
code stops at the second `=` and returns "a". -/
theorem vm_name_claimed_rule_fails :
    get_vm_name_from_cmdline ["guest=a=b,c"] = "a"
    ∧ vmNameSpecClaimed ["guest=a=b,c"] = "a=b"
    ∧ get_vm_name_from_cmdline ["guest=a=b,c"] ≠ vmNameSpecClaimed ["guest=a=b,c"] := by
  exact ⟨rfl, rfl, by decide⟩

/-- C3 (amended): for every token list, `get_vm_name_from_cmdline` returns,
for the first `guest=` token, the substring after the first `=` up to the
next `=` or `,` (whichever comes first); this wins over any `-id` marker;
otherwise the token following the first `-id` token; otherwise "". -/
theorem vm_name_matches_amended_spec (cmdline : List String) :
    get_vm_name_from_cmdline cmdline = vmNameSpecAmended cmdline := by
  unfold get_vm_name_from_cmdline vmNameSpecAmended guestValue
  cases cmdline.find? (fun elmt => strStartsWith elmt "guest=") with
  | none => rfl
  | some elmt =>
    simp only []
    exact congrArg String.mk (takeWhile_comp _ _ _)

/-- Boolean list-prefix test (needle as prefix of haystack). -/
def isPrefixChars : List Char → List Char → Bool
  | [], _ => true
  | _ :: _, [] => false
  | a :: as, b :: bs => a == b && isPrefixChars as bs

/-- Substring containment on character lists: some suffix of `hay` starts
with `needle`. -/
def containsChars (needle : List Char) : List Char → Bool
  | [] => needle.isEmpty
  | c :: rest => isPrefixChars needle (c :: rest) || containsChars needle rest

/-- Embedding of `str::contains(pat)`: substring containment. -/
def strContains (s pat : String) : Bool :=
  containsChars pat.toList s.toList

/-- A live process as seen by the classifier: its pid and the command-line
tokens stored on the record (`process.cmdline` field). -/
structure Process where
  pid : Int
  cmdline : List String
deriving DecidableEq, Repr

/-- One historical sample of a process tracked by the topology layer. -/
structure ProcessRecord where
  process : Process
  timestamp : Nat
deriving DecidableEq, Repr

/-- The recognized qemu/kvm guest-process signature test from
`filter_qemu_vm_processes`: a token containing `qemu-system` or
`/usr/bin/kvm`. -/
def isQemuToken (x : String) : Bool :=
  strContains x "qemu-system" || strContains x "/usr/bin/kvm"

/-- The per-chain test of `filter_qemu_vm_processes`: the chain is
non-empty and its first record's command line has a token matching the
guest-process signature. -/
def chainMatches (vecp : List ProcessRecord) : Bool :=
  !vecp.isEmpty &&
    match vecp.head? with
    | some pr => (pr.process.cmdline.find? isQemuToken).isSome
    | none => false

/-- Embedding of `QemuExporter::filter_qemu_vm_processes` (src/exporters/qemu.rs, lines
161-184): keeps exactly the chains passing `chainMatches`; each kept chain
is pushed as an element-wise clone, i.e. an equal list. -/
def filter_qemu_vm_processes (processes : List (List ProcessRecord)) :
    List (List ProcessRecord) :=
  processes.filter chainMatches

/-- C6: a process-record chain none of whose samples' command lines contain
a recognized guest-process signature token is excluded from every VM group
returned by `filter_qemu_vm_processes`, whatever its other attributes and
whatever the rest of the input is. -/
theorem unmatched_chain_excluded (processes : List (List ProcessRecord))
    (vecp : List ProcessRecord)
    (h : ∀ pr ∈ vecp, ∀ tok ∈ pr.process.cmdline, isQemuToken tok = false) :
    vecp ∉ filter_qemu_vm_processes processes := by
  intro hmem
  have hmatch : chainMatches vecp = true := List.of_mem_filter hmem
  cases vecp with
  | nil => simp [chainMatches] at hmatch
  | cons pr rest =>
    simp only [chainMatches, List.isEmpty_cons, List.head?_cons, Bool.not_false,
      Bool.true_and] at hmatch
    rw [Option.isSome_iff_exists] at hmatch
    obtain ⟨tok, htok⟩ := hmatch
    have h1 : isQemuToken tok = true := List.find?_some htok
    have h2 : tok ∈ pr.process.cmdline := List.mem_of_find?_eq_some htok
    have := h pr (List.mem_cons_self pr rest) tok h2
    rw [this] at h1
    exact Bool.false_ne_true h1

/-- C6 witness: a chain whose only command line is `["bash"]` is excluded. -/
theorem unmatched_chain_excluded_witness :
    [⟨⟨1, ["bash"]⟩, 0⟩] ∉
      filter_qemu_vm_processes [[⟨⟨1, ["bash"]⟩, 0⟩]] :=
  unmatched_chain_excluded [[⟨⟨1, ["bash"]⟩, 0⟩]] [⟨⟨1, ["bash"]⟩, 0⟩]
    (by decide)

/-- C10: every VM group returned by `filter_qemu_vm_processes` is one of
the input chains (the clone is element-wise, so the lists are equal) and is
non-empty, hence taking its first record cannot fail. -/
theorem vm_groups_nonempty_from_input (processes : List (List ProcessRecord))
    (g : List ProcessRecord) (h : g ∈ filter_qemu_vm_processes processes) :
    g ∈ processes ∧ g ≠ [] ∧ g.head?.isSome := by
  have h1 : g ∈ processes := List.mem_of_mem_filter h
  have h2 : chainMatches g = true := List.of_mem_filter h
  refine ⟨h1, ?_, ?_⟩
  · intro hg
    subst hg
    simp [chainMatches] at h2
  · cases g with
    | nil => simp [chainMatches] at h2
    | cons pr rest => simp

/-- C10 witness: a single matching chain comes back as itself, non-empty,
with a first record. -/
theorem vm_groups_nonempty_from_input_witness :
    [(⟨⟨7, ["/usr/bin/kvm", "-id", "107"]⟩, 0⟩ : ProcessRecord)] ∈
        [[(⟨⟨7, ["/usr/bin/kvm", "-id", "107"]⟩, 0⟩ : ProcessRecord)]]
      ∧ [(⟨⟨7, ["/usr/bin/kvm", "-id", "107"]⟩, 0⟩ : ProcessRecord)] ≠ []
      ∧ ([(⟨⟨7, ["/usr/bin/kvm", "-id", "107"]⟩, 0⟩ : ProcessRecord)] :
          List ProcessRecord).head?.isSome :=
  vm_groups_nonempty_from_input
    [[⟨⟨7, ["/usr/bin/kvm", "-id", "107"]⟩, 0⟩]]
    [⟨⟨7, ["/usr/bin/kvm", "-id", "107"]⟩, 0⟩]
    (by decide)

/-- Rust `as u64` on a non-negative finite float: truncation toward zero,
saturating at the type bounds (negative values clamp to 0). The `f64` is
modelled as `ℚ`. -/
def f64ToU64 (q : ℚ) : Nat :=
  if q < 0 then 0 else min (2 ^ 64 - 1) q.floor.toNat

/-- The topology snapshot as consumed by `QemuExporter::iterate`, after its
initial `refresh()`: the latest dynamic power diff (its record's string
value modelled as the parsed number), the latest time diff, the alive
process-record chains, and the per-pid attribution factor query. `none`
models the topology layer's no-result answers. -/
structure Topology where
  powerDiffMicrowattsDynamic : Option ℚ
  timeDiff : Option ℚ
  aliveProcesses : List (List ProcessRecord)
  attributionFactor : Int → Option ℚ

/-- One observable action of `iterate` on a VM group: the attribution
factor was looked up for the group's representative pid, and — when the
factor was available — `add_or_create` was called on the group's exported
path with the computed microjoule delta, with the recorded outcome. -/
structure Event where
  group : List ProcessRecord
  pid : Int
  update : Option (FsPath × Nat × AddResult)
deriving DecidableEq, Repr

/-- The body of `iterate`'s per-group loop (src/exporters/qemu.rs, lines
70-96): groups with more than two samples get their VM name resolved from
the first record, the attribution factor looked up, and on success
`add_or_create` applied; the returned Bool is true when the iteration
aborted the process (a panic inside `add_or_create`, or the unreachable
`first().unwrap()` on an empty group). -/
def processGroup (env : FsEnv) (topo : Topology) (ujDynamic : ℚ) (path : FsPath)
    (fs : FS) (qp : List ProcessRecord) : FS × List Event × Bool :=
  if 2 < qp.length then
    match qp.head? with
    | some last =>
      let vm_name := get_vm_name_from_cmdline last.process.cmdline
      let exported_path := path ++ [vm_name]
      match topo.attributionFactor last.process.pid with
      | some procUtilization =>
        let ujToAdd := f64ToU64 (procUtilization * ujDynamic)
        let r := add_or_create env fs exported_path ujToAdd
        (r.2, [⟨qp, last.process.pid, some (exported_path, ujToAdd, r.1)⟩], r.1.isFatal)
      | none => (fs, [⟨qp, last.process.pid, none⟩], false)
    | none => (fs, [], true)
  else (fs, [], false)

/-- The fold of `processGroup` performed by `iterate` over the classified VM groups; a
process abort stops the loop, a per-group soft error does not. -/
def runGroups (env : FsEnv) (topo : Topology) (ujDynamic : ℚ) (path : FsPath) :
    FS → List (List ProcessRecord) → FS × List Event × Bool
  | fs, [] => (fs, [], false)
  | fs, qp :: rest =>
    let r1 := processGroup env topo ujDynamic path fs qp
    if r1.2.2 then (r1.1, r1.2.1, true)
    else
      let r2 := runGroups env topo ujDynamic path r1.1 rest
      (r2.1, r1.2.1 ++ r2.2.1, r2.2.2)

/-- Embedding of `QemuExporter::iterate` (src/exporters/qemu.rs, lines 56-98): refresh
(already folded into `topo`), read the dynamic power diff and the time
diff — returning with nothing done when either is a no-result — then
classify the alive processes and run the per-group loop. Result: final
filesystem, trace of per-group actions, process-aborted flag. -/
def iterate (env : FsEnv) (topo : Topology) (path : FsPath) (fs : FS) :
    FS × List Event × Bool :=
  match topo.powerDiffMicrowattsDynamic with
  | none => (fs, [], false)
  | some uwDynamic =>
    match topo.timeDiff with
    | none => (fs, [], false)
    | some tDiff =>
      let ujDynamic := uwDynamic * tDiff
      runGroups env topo ujDynamic path fs (filter_qemu_vm_processes topo.aliveProcesses)

theorem processGroup_short (env : FsEnv) (topo : Topology) (ujDynamic : ℚ)
    (path : FsPath) (fs : FS) (qp : List ProcessRecord) (h : qp.length ≤ 2) :
    processGroup env topo ujDynamic path fs qp = (fs, [], false) := by
  unfold processGroup
  rw [if_neg (by omega)]

theorem processGroup_event_group (env : FsEnv) (topo : Topology) (ujDynamic : ℚ)
    (path : FsPath) (fs : FS) (qp : List ProcessRecord) (ev : Event)
    (h : ev ∈ (processGroup env topo ujDynamic path fs qp).2.1) :
    ev.group = qp ∧ 2 < qp.length := by
  unfold processGroup at h
  split at h
  · rename_i hlen
    split at h
    · rename_i last _
      split at h
      · simp only [List.mem_singleton] at h
        subst h
        exact ⟨rfl, hlen⟩
      · simp only [List.mem_singleton] at h
        subst h
        exact ⟨rfl, hlen⟩
    · simp at h
  · simp at h

theorem runGroups_event_group (env : FsEnv) (topo : Topology) (ujDynamic : ℚ)
    (path : FsPath) (gs : List (List ProcessRecord)) :
    ∀ (fs : FS) (ev : Event), ev ∈ (runGroups env topo ujDynamic path fs gs).2.1 →
      ∃ qp ∈ gs, ev.group = qp ∧ 2 < qp.length := by
  induction gs with
  | nil => intro fs ev h; simp [runGroups] at h
  | cons qp rest ih =>
    intro fs ev h
    rw [runGroups] at h
    by_cases hp : (processGroup env topo ujDynamic path fs qp).2.2
    · rw [if_pos hp] at h
      obtain ⟨hg, hlen⟩ := processGroup_event_group env topo ujDynamic path fs qp ev h
      exact ⟨qp, List.mem_cons_self qp rest, hg, hlen⟩
    · rw [if_neg hp] at h
      simp only [List.mem_append] at h
      rcases h with h | h
      · obtain ⟨hg, hlen⟩ := processGroup_event_group env topo ujDynamic path fs qp ev h
        exact ⟨qp, List.mem_cons_self qp rest, hg, hlen⟩
      · obtain ⟨qp2, hmem, hg, hlen⟩ :=
          ih (processGroup env topo ujDynamic path fs qp).1 ev h
        exact ⟨qp2, List.mem_cons_of_mem qp hmem, hg, hlen⟩

/-- C4: in one export tick, every per-group action in the trace of
`iterate` (attribution-factor lookup, and hence every `add_or_create`
call) belongs to a VM group with more than two historical samples; and a
group with two or fewer samples is processed to nothing — same filesystem,
no lookup, no counter update, no abort. -/
theorem iterate_skips_young_chains (env : FsEnv) (topo : Topology)
    (path : FsPath) (fs : FS) :
    (∀ ev ∈ (iterate env topo path fs).2.1, 2 < ev.group.length)
    ∧ ∀ (ujDynamic : ℚ) (fs2 : FS) (qp : List ProcessRecord), qp.length ≤ 2 →
        processGroup env topo ujDynamic path fs2 qp = (fs2, [], false) := by
  constructor
  · intro ev hev
    unfold iterate at hev
    cases hw : topo.powerDiffMicrowattsDynamic with
    | none => rw [hw] at hev; simp at hev
    | some uw =>
      rw [hw] at hev
      cases ht : topo.timeDiff with
      | none => rw [ht] at hev; simp at hev
      | some t =>
        rw [ht] at hev
        obtain ⟨qp, _, hg, hlen⟩ := runGroups_event_group env topo (uw * t) path
          (filter_qemu_vm_processes topo.aliveProcesses) fs ev hev
        rw [hg]
        exact hlen
  · intro ujDynamic fs2 qp h
    exact processGroup_short env topo ujDynamic path fs2 qp h

/-- Three samples of one kvm guest process (pid 101), oldest first. -/
def pr1 : ProcessRecord := ⟨⟨101, ["/usr/bin/kvm", "-id", "107"]⟩, 1⟩

def pr2 : ProcessRecord := ⟨⟨101, ["/usr/bin/kvm", "-id", "107"]⟩, 2⟩

def pr3 : ProcessRecord := ⟨⟨101, ["/usr/bin/kvm", "-id", "107"]⟩, 3⟩

def chain1 : List ProcessRecord := [pr1, pr2, pr3]

/-- A topology snapshot with a measured interval and one mature VM chain. -/
def topoDemo : Topology :=
  ⟨some 10, some 2, [chain1], fun _ => some (1 / 2)⟩

/-- A topology snapshot on the very first tick: no diffs available yet. -/
def topoFirstTick : Topology := ⟨none, none, [chain1], fun _ => none⟩

/-- C4 witness: on a concrete tick the produced event belongs to the
3-sample chain, and a 1-sample chain is processed to nothing. -/
theorem iterate_skips_young_chains_witness :
    2 < chain1.length
    ∧ processGroup envOk topoDemo 0 ["root"] FS.empty [pr1] = (FS.empty, [], false) := by
  constructor
  · refine (iterate_skips_young_chains envOk topoDemo ["root"] FS.empty).1
      ⟨chain1, 101, some (["root", "107"], f64ToU64 (1 / 2 * (10 * 2)),
        (add_or_create envOk FS.empty ["root", "107"]
          (f64ToU64 (1 / 2 * (10 * 2)))).1)⟩ ?_
    rw [show (iterate envOk topoDemo ["root"] FS.empty).2.1
        = [⟨chain1, 101, some (["root", "107"], f64ToU64 (1 / 2 * (10 * 2)),
            (add_or_create envOk FS.empty ["root", "107"]
              (f64ToU64 (1 / 2 * (10 * 2)))).1)⟩] from rfl]
    exact List.mem_singleton.mpr rfl
  · exact (iterate_skips_young_chains envOk topoDemo ["root"] FS.empty).2
      0 FS.empty [pr1] (by decide)

/-- C5: when the interval computation yields no result (no dynamic-power
diff or no time diff from the topology layer), `iterate` performs zero
filesystem writes, emits no per-group action, and does not abort: the
state is returned unchanged. -/
theorem iterate_no_result_no_writes (env : FsEnv) (topo : Topology)
    (path : FsPath) (fs : FS)
    (h : topo.powerDiffMicrowattsDynamic = none ∨ topo.timeDiff = none) :
    iterate env topo path fs = (fs, [], false) := by
  unfold iterate
  rcases h with h | h
  · rw [h]
  · cases hw : topo.powerDiffMicrowattsDynamic with
    | none => rfl
    | some uw => rw [h]

/-- C5 witness: the very first tick leaves the filesystem untouched. -/
theorem iterate_no_result_no_writes_witness :
    iterate envOk topoFirstTick ["root"] FS.empty = (FS.empty, [], false) :=
  iterate_no_result_no_writes envOk topoFirstTick ["root"] FS.empty (Or.inl rfl)

theorem filterKey_any (p q : FsPath) (h : q ≠ p) (l : List (FsPath × String)) :
    (l.filter (fun f => f.1 ≠ p)).any (fun f => f.1 = q)
      = l.any (fun f => f.1 = q) := by
  induction l with
  | nil => rfl
  | cons a l ih =>
    by_cases hap : a.1 = p
    · have haq : ¬(a.1 = q) := fun e => h (e ▸ hap)
      rw [List.filter_cons_of_neg (by simp [hap]), ih, List.any_cons,
        decide_eq_false haq, Bool.false_or]
    · rw [List.filter_cons_of_pos (by simp [hap]), List.any_cons, List.any_cons, ih]

theorem filterKey_find (p q : FsPath) (h : q ≠ p) (l : List (FsPath × String)) :
    (l.filter (fun f => f.1 ≠ p)).find? (fun f => f.1 = q)
      = l.find? (fun f => f.1 = q) := by
  induction l with
  | nil => rfl
  | cons a l ih =>
    by_cases hap : a.1 = p
    · have haq : ¬(a.1 = q) := fun e => h (e ▸ hap)
      rw [List.filter_cons_of_neg (by simp [hap]), ih,
        List.find?_cons_of_neg _ (by simp [haq])]
    · by_cases haq : a.1 = q
      · rw [List.filter_cons_of_pos (by simp [hap]),
          List.find?_cons_of_pos _ (by simp [haq]),
          List.find?_cons_of_pos _ (by simp [haq])]
      · rw [List.filter_cons_of_pos (by simp [hap]),
          List.find?_cons_of_neg _ (by simp [haq]),
          List.find?_cons_of_neg _ (by simp [haq]), ih]

/-- Writing one file does not change existence of any other path. -/
theorem pathExists_writeFile (fs : FS) (p : FsPath) (c : String) (q : FsPath)
    (h : q ≠ p) : (fs.writeFile p c).pathExists q = fs.pathExists q := by
  unfold FS.writeFile FS.pathExists
  have hpq : ¬((p, c).1 = q) := fun e => h e.symm
  simp only [List.any_cons, filterKey_any p q h, hpq, decide_False, Bool.false_or]

/-- Writing one file does not change the content read at any other path. -/
theorem readToString_writeFile (fs : FS) (p : FsPath) (c : String) (q : FsPath)
    (h : q ≠ p) : (fs.writeFile p c).readToString q = fs.readToString q := by
  unfold FS.writeFile FS.readToString
  have hpq : ¬((p, c).1 = q) := fun e => h e.symm
  simp only [List.find?_cons, hpq, decide_False, filterKey_find p q h]

/-- C8: in `add_or_create`, a failure to create any level of the export
directory tree (VM path, domain level, sub-domain level) is a process
abort (`fatal`), while a failure to write a label (`name`) or counter
(`energy_uj`) file is returned as an `io::Error`; and the per-tick loop of
`iterate` continues with the remaining VM groups after a group whose
processing did not abort — soft errors drop only that VM's update. -/
theorem add_or_create_error_policy :
    (∀ (env : FsEnv) (fs : FS) (path : FsPath) (uj : Nat),
      fs.pathExists path = false → env.createDirFails path = true →
      (add_or_create env fs path uj).1 = .fatal "create_dir_all")
    ∧ (∀ (env : FsEnv) (fs : FS) (path : FsPath) (uj : Nat),
      fs.pathExists path = true →
      fs.pathExists (path ++ ["intel-rapl:0"]) = false →
      env.createDirFails (path ++ ["intel-rapl:0"]) = true →
      (add_or_create env fs path uj).1 = .fatal "create_dir_all")
    ∧ (∀ (env : FsEnv) (fs : FS) (path : FsPath) (uj : Nat),
      fs.pathExists path = true →
      fs.pathExists (path ++ ["intel-rapl:0"]) = true →
      env.writeFails (path ++ ["intel-rapl:0", "name"]) = false →
      fs.pathExists (path ++ ["intel-rapl:0", "intel-rapl:0:0"]) = false →
      env.createDirFails (path ++ ["intel-rapl:0", "intel-rapl:0:0"]) = true →
      (add_or_create env fs path uj).1 = .fatal "create_dir_all")
    ∧ (∀ (env : FsEnv) (fs : FS) (path : FsPath) (uj : Nat),
      fs.pathExists path = true →
      fs.pathExists (path ++ ["intel-rapl:0"]) = true →
      env.writeFails (path ++ ["intel-rapl:0", "name"]) = true →
      (add_or_create env fs path uj).1 = .err "write name")
    ∧ (∀ (env : FsEnv) (fs : FS) (path : FsPath) (uj : Nat),
      fs.pathExists path = true →
      fs.pathExists (path ++ ["intel-rapl:0"]) = true →
      fs.pathExists (path ++ ["intel-rapl:0", "intel-rapl:0:0"]) = true →
      env.writeFails (path ++ ["intel-rapl:0", "name"]) = false →
      env.writeFails (path ++ ["intel-rapl:0", "intel-rapl:0:0", "name"]) = false →
      fs.readToString (path ++ ["intel-rapl:0", "energy_uj"]) = none →
      env.writeFails (path ++ ["intel-rapl:0", "energy_uj"]) = true →
      (add_or_create env fs path uj).1 = .err "write energy_uj")
    ∧ (∀ (env : FsEnv) (topo : Topology) (ujD : ℚ) (path : FsPath) (fs fs1 : FS)
        (qp : List ProcessRecord) (rest : List (List ProcessRecord)) (evs1 : List Event),
      processGroup env topo ujD path fs qp = (fs1, evs1, false) →
      runGroups env topo ujD path fs (qp :: rest) =
        ((runGroups env topo ujD path fs1 rest).1,
         evs1 ++ (runGroups env topo ujD path fs1 rest).2.1,
         (runGroups env topo ujD path fs1 rest).2.2)) := by
  refine ⟨?_, ?_, ?_, ?_, ?_, ?_⟩
  · intro env fs path uj h1 h2
    unfold add_or_create
    simp [h1, h2]
  · intro env fs path uj h1 h2 h3
    unfold add_or_create
    simp [h1, h2, h3]
  · intro env fs path uj h1 h2 h3 h4 h5
    have hneA : (path ++ ["intel-rapl:0", "intel-rapl:0:0"] : FsPath)
        ≠ path ++ ["intel-rapl:0", "name"] := fun e =>
      (by decide :
          ¬(["intel-rapl:0", "intel-rapl:0:0"] : List String) = ["intel-rapl:0", "name"])
        (List.append_cancel_left e)
    have e1 : ∀ fs' : FS, (FS.writeFile fs' (path ++ ["intel-rapl:0", "name"])
        "package-0").pathExists (path ++ ["intel-rapl:0", "intel-rapl:0:0"])
        = fs'.pathExists (path ++ ["intel-rapl:0", "intel-rapl:0:0"]) :=
      fun fs' => pathExists_writeFile fs' _ _ _ hneA
    unfold add_or_create
    simp [h1, h2, h3, h4, h5, e1]
  · intro env fs path uj h1 h2 h3
    unfold add_or_create
    simp [h1, h2, h3]
  · intro env fs path uj h1 h2 h3 h4 h5 h6 h7
    have hneA : (path ++ ["intel-rapl:0", "intel-rapl:0:0"] : FsPath)
        ≠ path ++ ["intel-rapl:0", "name"] := fun e =>
      (by decide :
          ¬(["intel-rapl:0", "intel-rapl:0:0"] : List String) = ["intel-rapl:0", "name"])
        (List.append_cancel_left e)
    have hneB : (path ++ ["intel-rapl:0", "energy_uj"] : FsPath)
        ≠ path ++ ["intel-rapl:0", "intel-rapl:0:0", "name"] := fun e =>
      (by decide :
          ¬(["intel-rapl:0", "energy_uj"] : List String)
            = ["intel-rapl:0", "intel-rapl:0:0", "name"])
        (List.append_cancel_left e)
    have hneC : (path ++ ["intel-rapl:0", "energy_uj"] : FsPath)
        ≠ path ++ ["intel-rapl:0", "name"] := fun e =>
      (by decide : ¬(["intel-rapl:0", "energy_uj"] : List String) = ["intel-rapl:0", "name"])
        (List.append_cancel_left e)
    have e1 : ∀ fs' : FS, (FS.writeFile fs' (path ++ ["intel-rapl:0", "name"])
        "package-0").pathExists (path ++ ["intel-rapl:0", "intel-rapl:0:0"])
        = fs'.pathExists (path ++ ["intel-rapl:0", "intel-rapl:0:0"]) :=
      fun fs' => pathExists_writeFile fs' _ _ _ hneA
    have e2 : ∀ (fs' : FS) (c : String),
        (FS.writeFile fs' (path ++ ["intel-rapl:0", "intel-rapl:0:0", "name"])
          c).readToString (path ++ ["intel-rapl:0", "energy_uj"])
        = fs'.readToString (path ++ ["intel-rapl:0", "energy_uj"]) :=
      fun fs' c => readToString_writeFile fs' _ c _ hneB
    have e3 : ∀ (fs' : FS) (c : String),
        (FS.writeFile fs' (path ++ ["intel-rapl:0", "name"])
          c).readToString (path ++ ["intel-rapl:0", "energy_uj"])
        = fs'.readToString (path ++ ["intel-rapl:0", "energy_uj"]) :=
      fun fs' c => readToString_writeFile fs' _ c _ hneC
    unfold add_or_create writeEnergyBoth
    simp [h1, h2, h3, h4, h5, h6, h7, e1, e2, e3]
  · intro env topo ujD path fs fs1 qp rest evs1 hpg
    simp [runGroups, hpg]

/-- Environment where every directory creation fails. -/
def envDirFail : FsEnv := ⟨fun _ => true, fun _ => false⟩

/-- Environment where only creating the domain-level directory fails. -/
def envPkgDirFail : FsEnv :=
  ⟨fun p => decide (p = ["root", "vm1", "intel-rapl:0"]), fun _ => false⟩

/-- Environment where only creating the sub-domain-level directory fails. -/
def envCoreDirFail : FsEnv :=
  ⟨fun p => decide (p = ["root", "vm1", "intel-rapl:0", "intel-rapl:0:0"]), fun _ => false⟩

/-- Environment where only the domain-level label-file write fails. -/
def envNameFail : FsEnv :=
  ⟨fun _ => false, fun p => decide (p = ["root", "vm1", "intel-rapl:0", "name"])⟩

/-- Environment where only the domain-level counter-file write fails. -/
def envEnergyFail : FsEnv :=
  ⟨fun _ => false, fun p => decide (p = ["root", "vm1", "intel-rapl:0", "energy_uj"])⟩

/-- Filesystem with only the VM path present. -/
def fsRoot : FS := FS.empty.createDirAll ["root", "vm1"]

/-- Filesystem with the VM path and the domain-level directory present. -/
def fsPkg : FS := fsRoot.createDirAll ["root", "vm1", "intel-rapl:0"]

/-- Filesystem with all three directory levels present. -/
def fsCore : FS := fsPkg.createDirAll ["root", "vm1", "intel-rapl:0", "intel-rapl:0:0"]

/-- C8 witness: each failure mode exercised on a concrete environment, and
the loop continuing past a non-aborting group. -/
theorem add_or_create_error_policy_witness :
    (add_or_create envDirFail FS.empty ["root", "vm1"] 3).1 = .fatal "create_dir_all"
    ∧ (add_or_create envPkgDirFail fsRoot ["root", "vm1"] 3).1 = .fatal "create_dir_all"
    ∧ (add_or_create envCoreDirFail fsPkg ["root", "vm1"] 3).1 = .fatal "create_dir_all"
    ∧ (add_or_create envNameFail fsPkg ["root", "vm1"] 3).1 = .err "write name"
    ∧ (add_or_create envEnergyFail fsCore ["root", "vm1"] 3).1 = .err "write energy_uj"
    ∧ runGroups envOk topoDemo 0 ["root"] FS.empty [[]] =
        ((runGroups envOk topoDemo 0 ["root"] FS.empty []).1,
         [] ++ (runGroups envOk topoDemo 0 ["root"] FS.empty []).2.1,
         (runGroups envOk topoDemo 0 ["root"] FS.empty []).2.2) := by
  refine ⟨?_, ?_, ?_, ?_, ?_, ?_⟩
  · exact add_or_create_error_policy.1 envDirFail FS.empty ["root", "vm1"] 3
      (by decide) (by decide)
  · exact add_or_create_error_policy.2.1 envPkgDirFail fsRoot ["root", "vm1"] 3
      (by decide) (by decide) (by decide)
  · exact add_or_create_error_policy.2.2.1 envCoreDirFail fsPkg ["root", "vm1"] 3
      (by decide) (by decide) (by decide) (by decide) (by decide)
  · exact add_or_create_error_policy.2.2.2.1 envNameFail fsPkg ["root", "vm1"] 3
      (by decide) (by decide) (by decide)
  · exact add_or_create_error_policy.2.2.2.2.1 envEnergyFail fsCore ["root", "vm1"] 3
      (by decide) (by decide) (by decide) (by decide) (by decide) (by decide) (by decide)
  · exact add_or_create_error_policy.2.2.2.2.2 envOk topoDemo 0 ["root"]
      FS.empty FS.empty [] [] [] rfl

/-- Embedding of `format_metric` (src/exporters/prometheus.rs, lines 190-202): starts
from the key; when a label mapping is supplied it appends an opening brace,
then `k="v",` for each entry in iteration order, removes the last character
(the trailing comma — or the opening brace itself when the mapping is
empty), and appends a closing brace; finally appends a space, the value and
a newline. The `HashMap` is modelled as its iteration-ordered entry list;
`String::remove(len - 1)` is dropping the last character. -/
def format_metric (key value : String) (labels : Option (List (String × String))) :
    String :=
  let result := key
  let result :=
    match labels with
    | some ls =>
      let r := result.push '\x7b'
      let r := ls.foldl (fun acc kv => acc ++ kv.1 ++ "=\x22" ++ kv.2 ++ "\x22,") r
      let r := String.mk r.toList.dropLast
      r.push '\x7d'
    | none => result
  result ++ " " ++ value ++ "\n"

/-- C7 (counterexample): with a present-but-empty label mapping the claim
demands `name value\n` with no brace block, but `format_metric` removes the
opening brace and still appends the closing one, leaving a stray brace. -/
theorem format_metric_empty_map_stray_brace :
    format_metric "host_power_microwatts" "45000" (some [])
      ≠ "host_power_microwatts 45000\n"
    ∧ format_metric "host_power_microwatts" "45000" (some [])
      = "host_power_microwatts\x7d 45000\n" := by
  exact ⟨by decide, rfl⟩

/-- C7 (amended): the concrete single-label rendering is exactly as
claimed; for every name and value, when no label mapping is supplied the
line is exactly name, space, value, newline (no brace block); a
present-but-empty mapping instead yields the name followed by a stray
closing brace. -/
theorem format_metric_rendering :
    format_metric "host_power_microwatts" "45000" (some [("hostname", "h1")])
      = "host_power_microwatts\x7bhostname=\x22h1\x22\x7d 45000\n"
    ∧ (∀ key value : String,
        format_metric key value none = key ++ " " ++ value ++ "\n")
    ∧ (∀ key value : String,
        format_metric key value (some []) = key.push '\x7d' ++ " " ++ value ++ "\n") := by
  refine ⟨rfl, fun key value => rfl, fun key value => ?_⟩
  show (String.mk (key.push '\x7b').toList.dropLast).push '\x7d' ++ " " ++ value ++ "\n"
      = key.push '\x7d' ++ " " ++ value ++ "\n"
  cases key with
  | mk data =>
    have hpush : (String.mk data).push '\x7b' = String.mk (data ++ ['\x7b']) := rfl
    rw [hpush]
    have htl : (String.mk (data ++ ['\x7b'])).toList = data ++ ['\x7b'] := rfl
    rw [htl, List.dropLast_concat]

/-- Embedding of `show_metrics` (src/exporters/prometheus.rs, lines 225-234), the active
request handler: a pure function of the request's URI path producing the
response body; it touches no topology state, no timestamps, and performs
no refresh. -/
def show_metrics (reqPath : String) : String :=
  if reqPath = "/metrics" then "Here come tha metriczzz !!!"
  else "go to /metrics !!"

/-- C9: evaluating the active handler — every request to "/metrics" gets a
fixed placeholder body and any other path a fixed hint body; the handler's
result depends on nothing but the path (it is a pure function with no
topology, timestamp, or refresh input), so no request triggers a purge, a
topology refresh, or metric regeneration, contradicting the claimed
5-second staleness gating. -/
theorem show_metrics_placeholder :
    show_metrics "/metrics" = "Here come tha metriczzz !!!"
    ∧ show_metrics "/somewhere" = "go to /metrics !!"
    ∧ ∀ p : String, show_metrics p = "Here come tha metriczzz !!!"
        ∨ show_metrics p = "go to /metrics !!" := by
  refine ⟨by decide, by decide, fun p => ?_⟩
  unfold show_metrics
  by_cases h : p = "/metrics"
  · rw [if_pos h]; exact Or.inl rfl
  · rw [if_neg h]; exact Or.inr rfl
